import Mathlib

/-!
Verification of the Mess-Manager real-time settlement engine.

Shallow embedding of `subscribeToSummaryData` (the composition controller and
the settlement aggregation it performs) and of the `saveMeal` upsert, from the
Firestore API module of the repository.  JavaScript numbers are modelled as
exact rationals; Firestore documents are structures whose possibly-absent
fields are `Option`-valued; collections are lists of documents.
-/

namespace MessManager

/-- A document of the `users` collection.  `role` and `status` are free-form
strings in the source (`"border"`, `"manager"`, `"pending"`, `"approved"`, …). -/
structure User where
  id : String
  name : String
  role : String
  status : String
deriving DecidableEq

/-- A document of the `meals` collection.  The summary code defends against a
missing `totalMeals` field with `(meal.totalMeals || 0)`, so the field is
`Option`-valued, as are the three per-meal weights written by `saveMeal`. -/
structure Meal where
  id : String
  userId : String
  date : String
  month : String
  breakfast : Option ℚ
  lunch : Option ℚ
  dinner : Option ℚ
  totalMeals : Option ℚ
deriving DecidableEq

/-- A document of the `deposits` collection;  `amount` may be negative. -/
structure Deposit where
  id : String
  userId : String
  date : String
  month : String
  amount : ℚ
deriving DecidableEq

/-- A document of the `costs` collection.  `type` is `"market"`, `"shared"` or
`"individual"`; `userId` is the attributed participant for individual costs. -/
structure Cost where
  id : String
  userId : String
  date : String
  month : String
  type : String
  amount : ℚ
deriving DecidableEq

/-- One row of `userSummaries`, as built by the map inside
`subscribeToSummaryData`. -/
structure UserSummary where
  userId : String
  userName : String
  totalMeals : ℚ
  totalDeposit : ℚ
  mealCost : ℚ
  sharedCost : ℚ
  individualCost : ℚ
  totalCost : ℚ
  balance : ℚ
deriving DecidableEq

/-- The object passed to the subscriber callback by `calculateAndBroadcast`. -/
structure Summary where
  month : String
  totalMeals : ℚ
  totalMarketCost : ℚ
  totalSharedCost : ℚ
  totalOtherCosts : ℚ
  totalAllDeposits : ℚ
  messBalance : ℚ
  mealRate : ℚ
  sharedCostPerUser : ℚ
  userCount : Nat
  userSummaries : List UserSummary
deriving DecidableEq

/-!  The aggregation performed by `calculateAndBroadcast`
(`subscribeToSummaryData`, lines 531–611).  Each local constant of the
JavaScript body becomes a named function of the inputs it reads.  A
JavaScript `reduce((sum, x) => sum + f(x), 0)` is embedded as the sum of the
mapped list (equal, since rational addition is associative and commutative
with unit 0). -/

/-- Embeds `allMeals.reduce((sum, meal) => sum + (meal.totalMeals || 0), 0)` -/
def totalMealsOf (allMeals : List Meal) : ℚ :=
  (allMeals.map (fun m => m.totalMeals.getD 0)).sum

/-- Embeds `allCosts.filter(cost => cost.type === "market").reduce((sum, cost) => sum + cost.amount, 0)` -/
def totalMarketCostOf (allCosts : List Cost) : ℚ :=
  ((allCosts.filter (fun c => c.type == "market")).map Cost.amount).sum

/-- Embeds `allCosts.filter(cost => cost.type === "shared").reduce((sum, cost) => sum + cost.amount, 0)` -/
def totalSharedCostOf (allCosts : List Cost) : ℚ :=
  ((allCosts.filter (fun c => c.type == "shared")).map Cost.amount).sum

/-- Embeds `allDeposits.reduce((sum, deposit) => sum + deposit.amount, 0)` -/
def totalAllDepositsOf (allDeposits : List Deposit) : ℚ :=
  (allDeposits.map Deposit.amount).sum

/-- Embeds `totalMeals > 0 ? totalMarketCost / totalMeals : 0` -/
def mealRateOf (allMeals : List Meal) (allCosts : List Cost) : ℚ :=
  if 0 < totalMealsOf allMeals then totalMarketCostOf allCosts / totalMealsOf allMeals else 0

/-- The filter from lines 551–554:
`(u.role === "border" || u.role === "manager") && u.status !== "pending"`. -/
def isParticipating (u : User) : Bool :=
  (u.role == "border" || u.role == "manager") && u.status != "pending"

/-- Embeds `users.filter(u => (u.role === "border" || u.role === "manager") && u.status !== "pending")` -/
def participatingUsers (users : List User) : List User :=
  users.filter isParticipating

/-- Embeds `participatingUsers.length > 0 ? totalSharedCost / participatingUsers.length : 0` -/
def sharedCostPerUserOf (users : List User) (allCosts : List Cost) : ℚ :=
  if 0 < (participatingUsers users).length then
    totalSharedCostOf allCosts / ((participatingUsers users).length : ℚ)
  else 0

/-- Embeds `allMeals.filter(meal => meal.userId === user.id).reduce(..., 0)` -/
def userMealsOf (allMeals : List Meal) (uid : String) : ℚ :=
  ((allMeals.filter (fun m => m.userId == uid)).map (fun m => m.totalMeals.getD 0)).sum

/-- Embeds `allDeposits.filter(deposit => deposit.userId === user.id).reduce(..., 0)` -/
def userDepositsOf (allDeposits : List Deposit) (uid : String) : ℚ :=
  ((allDeposits.filter (fun d => d.userId == uid)).map Deposit.amount).sum

/-- Embeds `allCosts.filter(cost => cost.type === "individual" && cost.userId === user.id).reduce(..., 0)` -/
def userIndividualCostsOf (allCosts : List Cost) (uid : String) : ℚ :=
  ((allCosts.filter (fun c => c.type == "individual" && c.userId == uid)).map Cost.amount).sum

/-- The body of `participatingUsers.map(user => ...)` (lines 559–587). -/
def userSummaryOf (allMeals : List Meal) (allDeposits : List Deposit) (allCosts : List Cost)
    (mealRate sharedCostPerUser : ℚ) (user : User) : UserSummary :=
  let userMeals := userMealsOf allMeals user.id
  let userDeposits := userDepositsOf allDeposits user.id
  let userIndividualCosts := userIndividualCostsOf allCosts user.id
  let mealCost := userMeals * mealRate
  let totalCost := mealCost + sharedCostPerUser + userIndividualCosts
  let balance := userDeposits - totalCost
  { userId := user.id
    userName := user.name
    totalMeals := userMeals
    totalDeposit := userDeposits
    mealCost := mealCost
    sharedCost := sharedCostPerUser
    individualCost := userIndividualCosts
    totalCost := totalCost
    balance := balance }

/-- Embeds `const userSummaries = participatingUsers.map(user => ...)` -/
def userSummariesOf (users : List User) (allMeals : List Meal) (allDeposits : List Deposit)
    (allCosts : List Cost) : List UserSummary :=
  (participatingUsers users).map
    (userSummaryOf allMeals allDeposits allCosts (mealRateOf allMeals allCosts)
      (sharedCostPerUserOf users allCosts))

/-- The summary object assembled at lines 594–606 of `subscribeToSummaryData`. -/
def computeSummary (month : String) (users : List User) (allMeals : List Meal)
    (allDeposits : List Deposit) (allCosts : List Cost) : Summary :=
  { month := month
    totalMeals := totalMealsOf allMeals
    totalMarketCost := totalMarketCostOf allCosts
    totalSharedCost := totalSharedCostOf allCosts
    totalOtherCosts := totalSharedCostOf allCosts +
      ((userSummariesOf users allMeals allDeposits allCosts).map UserSummary.individualCost).sum
    totalAllDeposits := totalAllDepositsOf allDeposits
    messBalance := totalAllDepositsOf allDeposits -
      ((userSummariesOf users allMeals allDeposits allCosts).map UserSummary.totalCost).sum
    mealRate := mealRateOf allMeals allCosts
    sharedCostPerUser := sharedCostPerUserOf users allCosts
    userCount := (participatingUsers users).length
    userSummaries := userSummariesOf users allMeals allDeposits allCosts }

/-!  The composition controller of `subscribeToSummaryData` (lines 525–643).
Its four mutable slots hold whatever JavaScript value was last assigned; the
guard at line 532 tests each slot for *falsiness*, so a slot is modelled as
`Option`-valued, `none` standing for a falsy value (null/undefined) and
`some xs` for an array.  Crucially, the slots are *initialized to empty
arrays* (`let users = [];` …), i.e. to `some []`, not to `none`. -/

/-- The controller four slots. -/
structure ControllerState where
  users : Option (List User)
  allMeals : Option (List Meal)
  allDeposits : Option (List Deposit)
  allCosts : Option (List Cost)
deriving DecidableEq

/-- Embeds `let users = []; let allMeals = []; let allDeposits = []; let allCosts = [];` -/
def initialControllerState : ControllerState :=
  { users := some [], allMeals := some [], allDeposits := some [], allCosts := some [] }

/-- Embeds `calculateAndBroadcast`: if any slot is falsy, return without output;
otherwise compute the summary and hand it to the callback. -/
def calculateAndBroadcast (month : String) (st : ControllerState) : Option Summary :=
  match st.users, st.allMeals, st.allDeposits, st.allCosts with
  | some us, some ms, some ds, some cs => some (computeSummary month us ms ds cs)
  | _, _, _, _ => none

/-- A snapshot delivered by one of the four stream subscriptions
(lines 613–635; the error case returns before touching the state, so only
successful snapshots are events). -/
inductive StreamEvent where
  | usersEvt (data : List User)
  | mealsEvt (data : List Meal)
  | depositsEvt (data : List Deposit)
  | costsEvt (data : List Cost)
deriving DecidableEq

/-- Each stream callback overwrites its slot. -/
def applyEvent (st : ControllerState) : StreamEvent → ControllerState
  | .usersEvt d => { st with users := some d }
  | .mealsEvt d => { st with allMeals := some d }
  | .depositsEvt d => { st with allDeposits := some d }
  | .costsEvt d => { st with allCosts := some d }

/-- Run a sequence of stream snapshots from a given state, collecting every
summary delivered to the subscriber callback. -/
def runTraceFrom (month : String) (st : ControllerState) : List StreamEvent → List Summary
  | [] => []
  | e :: rest =>
    let st' := applyEvent st e
    match calculateAndBroadcast month st' with
    | some s => s :: runTraceFrom month st' rest
    | none => runTraceFrom month st' rest

/-- Run a sequence of stream snapshots from the controller initial state. -/
def runTrace (month : String) (evts : List StreamEvent) : List Summary :=
  runTraceFrom month initialControllerState evts

/-- Whether an event is a users-stream snapshot. -/
def isUsersEvt : StreamEvent → Bool
  | .usersEvt _ => true
  | _ => false

/-- Whether an event is a meals-stream snapshot. -/
def isMealsEvt : StreamEvent → Bool
  | .mealsEvt _ => true
  | _ => false

/-- Whether an event is a deposits-stream snapshot. -/
def isDepositsEvt : StreamEvent → Bool
  | .depositsEvt _ => true
  | _ => false

/-- Whether an event is a costs-stream snapshot. -/
def isCostsEvt : StreamEvent → Bool
  | .costsEvt _ => true
  | _ => false

/-- All four streams have delivered at least one snapshot in the trace. -/
def allStreamsDelivered (evts : List StreamEvent) : Bool :=
  evts.any isUsersEvt && evts.any isMealsEvt && evts.any isDepositsEvt && evts.any isCostsEvt

/-!  The `saveMeal` upsert (lines 397–432).  `addDoc` is modelled by appending
a document with a caller-supplied fresh id; `updateDoc` merges the update
object into the document with the targeted id, a field being overwritten
exactly when it is present in the update object. -/

/-- The `mealData` argument of `saveMeal`: the three weights the meal-entry
form submits; a field may be absent. -/
structure MealData where
  breakfast : Option ℚ
  lunch : Option ℚ
  dinner : Option ℚ
deriving DecidableEq

/-- Embeds `(mealData.breakfast || 0) + (mealData.lunch || 0) + (mealData.dinner || 0)` -/
def mealDataTotal (md : MealData) : ℚ :=
  md.breakfast.getD 0 + md.lunch.getD 0 + md.dinner.getD 0

/-- The query predicate `where("userId","==",userId), where("date","==",date)`. -/
def mealKeyMatch (userId date : String) (m : Meal) : Bool :=
  m.userId == userId && m.date == date

/-- The effect on a meal document of
`updateDoc(..., { ...mealData, totalMeals, month, updatedAt })`:
weights present in `mealData` overwrite, absent ones are kept; `totalMeals`
and `month` are always rewritten; id, userId and date are untouched. -/
def applyMealUpdate (md : MealData) (month : String) (total : ℚ) (m : Meal) : Meal :=
  { m with
    breakfast := md.breakfast.orElse fun _ => m.breakfast
    lunch := md.lunch.orElse fun _ => m.lunch
    dinner := md.dinner.orElse fun _ => m.dinner
    totalMeals := some total
    month := month }

/-- The document created by the `addDoc` branch of `saveMeal`. -/
def newMealDoc (userId date : String) (md : MealData) (newId : String) : Meal :=
  { id := newId
    userId := userId
    date := date
    month := date.take 7
    breakfast := md.breakfast
    lunch := md.lunch
    dinner := md.dinner
    totalMeals := some (mealDataTotal md) }

/-- Embeds `saveMeal(userId, date, mealData)` acting on the meals collection:
derive month and totalMeals, query for an existing record with the same
(userId, date); update the first hit if any, otherwise add a new document. -/
def saveMeal (userId date : String) (md : MealData) (newId : String)
    (meals : List Meal) : List Meal :=
  let month := date.take 7
  let total := mealDataTotal md
  match meals.filter (mealKeyMatch userId date) with
  | [] => meals ++ [newMealDoc userId date md newId]
  | mealDoc :: _ =>
    meals.map fun m => if m.id == mealDoc.id then applyMealUpdate md month total m else m

/-- The collection invariant: at most one meal document per
(participantId, calendarDate) pair. -/
def mealUpsertInvariant (meals : List Meal) : Prop :=
  ∀ uid d, (meals.filter (mealKeyMatch uid d)).length ≤ 1

/-!  Concrete documents used to instantiate the theorems, built from the
end-to-end scenario of the spec: an approved border A with a 5/2-meal day, a
market cost of 500 and a deposit of 300, plus a pending border B. -/

/-- An approved border participant. -/
def exUserA : User := ⟨"A", "Alice", "border", "approved"⟩

/-- A pending border participant. -/
def exUserPending : User := ⟨"B", "Bob", "border", "pending"⟩

/-- A border participant whose status is neither `pending` nor `approved`. -/
def exUserRejected : User := ⟨"R", "Rex", "border", "rejected"⟩

/-- A meal record of participant A totalling 5/2. -/
def exMealA : Meal := ⟨"m1", "A", "2024-01-05", "2024-01", some 1, some 1, some (1/2), some (5/2)⟩

/-- A meal record of the pending participant B totalling 5/2. -/
def exMealPending : Meal := ⟨"m2", "B", "2024-01-05", "2024-01", some 1, some 1, some (1/2), some (5/2)⟩

/-- A market cost of 500. -/
def exMarketCost : Cost := ⟨"c1", "", "2024-01-05", "2024-01", "market", 500⟩

/-- A deposit of 300 by participant A. -/
def exDepositA : Deposit := ⟨"d1", "A", "2024-01-06", "2024-01", 300⟩

/-- A negative deposit (adjustment/fine) of -50 for participant A. -/
def exNegDeposit : Deposit := ⟨"d2", "A", "2024-01-08", "2024-01", -50⟩

/-- A deposit of 25 by the pending participant B. -/
def exDepositPending : Deposit := ⟨"d3", "B", "2024-01-06", "2024-01", 25⟩

/-- Meal-entry data for a first write. -/
def exMd1 : MealData := ⟨some 1, some 1, some 1⟩

/-- Meal-entry data for a second write on the same date. -/
def exMd2 : MealData := ⟨some 0, some 1, some (1/2)⟩

/-- The row computed for participant A in the end-to-end scenario
(meal rate 200, no shared or individual costs). -/
def exRowA : UserSummary := ⟨"A", "Alice", 5/2, 300, 500, 0, 0, 500, -200⟩

/-- The A row with meals `[exMealA]`, no deposits, market cost 500
(meal rate 200). -/
def exRowA1 : UserSummary := ⟨"A", "Alice", 5/2, 0, 500, 0, 0, 500, -500⟩

/-- The A row after the pending participant meal is added (total meals 5,
meal rate drops to 100, so the A meal cost halves). -/
def exRowA2 : UserSummary := ⟨"A", "Alice", 5/2, 0, 250, 0, 0, 250, -250⟩

/-!  Helper lemmas. -/

theorem userSummariesOf_map_userId (users : List User) (ms : List Meal) (ds : List Deposit)
    (cs : List Cost) :
    (userSummariesOf users ms ds cs).map UserSummary.userId
      = (participatingUsers users).map User.id := by
  unfold userSummariesOf
  rw [List.map_map]
  rfl

theorem totalAllDepositsOf_append (ds : List Deposit) (d : Deposit) :
    totalAllDepositsOf (ds ++ [d]) = totalAllDepositsOf ds + d.amount := by
  simp [totalAllDepositsOf]

theorem totalMealsOf_append (ms : List Meal) (m : Meal) :
    totalMealsOf (ms ++ [m]) = totalMealsOf ms + m.totalMeals.getD 0 := by
  simp [totalMealsOf]

theorem userDepositsOf_append (ds : List Deposit) (d : Deposit) (uid : String) :
    userDepositsOf (ds ++ [d]) uid
      = userDepositsOf ds uid + (if d.userId == uid then d.amount else 0) := by
  unfold userDepositsOf
  rw [List.filter_append]
  by_cases h : (d.userId == uid) = true
  · simp [h]
  · simp [h]

theorem userSummaryOf_balance_append_deposit (ms : List Meal) (ds : List Deposit)
    (cs : List Cost) (r s : ℚ) (d : Deposit) (u : User) (hd : (d.userId == u.id) = true) :
    (userSummaryOf ms (ds ++ [d]) cs r s u).balance
      = (userSummaryOf ms ds cs r s u).balance + d.amount := by
  simp only [userSummaryOf, userDepositsOf_append, hd, if_pos]
  ring

theorem userSummaryOf_append_deposit_other (ms : List Meal) (ds : List Deposit)
    (cs : List Cost) (r s : ℚ) (d : Deposit) (u : User) (hd : (d.userId == u.id) = false) :
    userSummaryOf ms (ds ++ [d]) cs r s u = userSummaryOf ms ds cs r s u := by
  simp [userSummaryOf, userDepositsOf_append, hd]

theorem mealKeyMatch_applyMealUpdate (uid d : String) (md : MealData) (mo : String)
    (tot : ℚ) (m : Meal) :
    mealKeyMatch uid d (applyMealUpdate md mo tot m) = mealKeyMatch uid d m := rfl

theorem filter_length_map_of_pres {α : Type} (g : α → α) (q : α → Bool)
    (hg : ∀ m, q (g m) = q m) (l : List α) :
    ((l.map g).filter q).length = (l.filter q).length := by
  rw [← List.countP_eq_length_filter, ← List.countP_eq_length_filter, List.countP_map]
  exact List.countP_congr (fun x _ => by simp [Function.comp, hg x])

theorem filter_map_ite_singleton {α : Type} [DecidableEq α] (p : α → Bool) (m0 u : α)
    (hp : p u = true) (l : List α) (hl : l.filter p = [m0]) :
    (l.map fun m => if m = m0 then u else m).filter p = [u] := by
  induction l with
  | nil => simp at hl
  | cons a t ih =>
    by_cases ha : p a = true
    · rw [List.filter_cons_of_pos ha] at hl
      have ha0 : a = m0 := by injection hl
      have ht : t.filter p = [] := by injection hl
      subst ha0
      have hm0t : a ∉ t := by
        intro hmem
        have : a ∈ t.filter p := List.mem_filter.mpr ⟨hmem, ha⟩
        simp [ht] at this
      have hmap : (t.map fun m => if m = a then u else m) = t := by
        conv_rhs => rw [← List.map_id t]
        apply List.map_congr_left
        intro x hx
        have hxa : x ≠ a := by
          intro hxe
          exact hm0t (hxe ▸ hx)
        simp [hxa]
      rw [List.map_cons, if_pos rfl, List.filter_cons_of_pos hp, hmap, ht]
    · have ha' : p a = false := by simpa using ha
      rw [List.filter_cons_of_neg ha] at hl
      have ham0 : a ≠ m0 := by
        rintro rfl
        have : a ∈ t.filter p := by rw [hl]; exact List.mem_singleton_self a
        have hpa : p a = true := List.of_mem_filter this
        simp [ha'] at hpa
      rw [List.map_cons, if_neg ham0, List.filter_cons_of_neg ha]
      exact ih hl

/-!  The claims. -/

/-- Claim C1 (refuted; the code diverges from it): the claim says the
controller never delivers a summary before all four streams have each
delivered at least one snapshot.  In the code the four slots are initialized
to empty arrays, which are truthy, so the falsiness guard in
`calculateAndBroadcast` can never fire: the very first stream snapshot — here
a single users snapshot, with the other three streams still silent — already
delivers a zeroed summary to the subscriber callback. -/
theorem C1_summary_delivered_before_all_streams :
    allStreamsDelivered [StreamEvent.usersEvt []] = false ∧
    runTrace "2024-01" [StreamEvent.usersEvt []] = [computeSummary "2024-01" [] [] [] []] ∧
    (computeSummary "2024-01" [] [] [] []).userSummaries = [] ∧
    (computeSummary "2024-01" [] [] [] []).userCount = 0 :=
  ⟨rfl, rfl, rfl, rfl⟩

/-- Claim C2, counterexample: the claimed characterisation "appears in
`userSummaries` iff role ∈ {border, manager} and status = approved" is false:
a border participant with status `rejected` (not `approved`) does appear in
`userSummaries` and is counted in the denominator, because the code only
tests `status !== "pending"`. -/
theorem C2_counterexample :
    (computeSummary "2024-01" [exUserRejected] [] [] []).userSummaries.map UserSummary.userId
      = ["R"] ∧
    (computeSummary "2024-01" [exUserRejected] [] [] []).userCount = 1 ∧
    exUserRejected.status ≠ "approved" := by
  refine ⟨by decide, by decide, by decide⟩

/-- Claim C2 as amended: a participant appears in `userSummaries` (one row,
in input order) and is counted in the eligible denominator (`userCount`) if
and only if their role is border or manager AND their status is NOT
`pending`; in particular a pending participant contributes nothing, even
with meal, cost or deposit records. -/
theorem C2_amended_eligibility (month : String) (users : List User) (ms : List Meal)
    (ds : List Deposit) (cs : List Cost) :
    (computeSummary month users ms ds cs).userSummaries.map UserSummary.userId
      = (users.filter (fun u =>
          (u.role == "border" || u.role == "manager") && u.status != "pending")).map User.id ∧
    (computeSummary month users ms ds cs).userCount
      = (users.filter (fun u =>
          (u.role == "border" || u.role == "manager") && u.status != "pending")).length :=
  ⟨userSummariesOf_map_userId users ms ds cs, rfl⟩

/-- Claim C4: the computed summary satisfies
`messBalance = totalAllDeposits - Σ totalCost` where the sum ranges over
exactly the rows of `userSummaries`. -/
theorem C4_mess_balance_conservation (month : String) (users : List User) (ms : List Meal)
    (ds : List Deposit) (cs : List Cost) :
    (computeSummary month users ms ds cs).messBalance
      = (computeSummary month users ms ds cs).totalAllDeposits
        - ((computeSummary month users ms ds cs).userSummaries.map UserSummary.totalCost).sum :=
  rfl

/-- Claim C6: with `totalMeals = 0` the meal rate is the rational number 0
(the guard short-circuits the division, so no NaN/Infinity can arise),
regardless of `totalMarketCost`; with `totalMeals > 0` it is
`totalMarketCost / totalMeals`. -/
theorem C6_meal_rate_division (month : String) (users : List User) (ms : List Meal)
    (ds : List Deposit) (cs : List Cost) :
    ((computeSummary month users ms ds cs).totalMeals = 0 →
      (computeSummary month users ms ds cs).mealRate = 0) ∧
    (0 < (computeSummary month users ms ds cs).totalMeals →
      (computeSummary month users ms ds cs).mealRate
        = (computeSummary month users ms ds cs).totalMarketCost
          / (computeSummary month users ms ds cs).totalMeals) := by
  constructor
  · intro h
    have h' : totalMealsOf ms = 0 := h
    show mealRateOf ms cs = 0
    simp [mealRateOf, h']
  · intro h
    have h' : 0 < totalMealsOf ms := h
    show mealRateOf ms cs = totalMarketCostOf cs / totalMealsOf ms
    simp [mealRateOf, h']

/-- Witness for C6: with no meals and a market cost of 500 the rate is 0;
in the end-to-end scenario (5/2 meals, market 500) the rate is the
quotient. -/
theorem C6_witness :
    (computeSummary "2024-01" [exUserA] [] [] [exMarketCost]).mealRate = 0 ∧
    (computeSummary "2024-01" [exUserA, exUserPending] [exMealA] [] [exMarketCost]).mealRate
      = (computeSummary "2024-01" [exUserA, exUserPending] [exMealA] [] [exMarketCost]).totalMarketCost
        / (computeSummary "2024-01" [exUserA, exUserPending] [exMealA] [] [exMarketCost]).totalMeals :=
  ⟨(C6_meal_rate_division "2024-01" [exUserA] [] [] [exMarketCost]).1 rfl,
   (C6_meal_rate_division "2024-01" [exUserA, exUserPending] [exMealA] [] [exMarketCost]).2
     (by norm_num [computeSummary, totalMealsOf, exMealA])⟩

/-- Claim C7: with no eligible participants, `sharedCostPerUser = 0` and
`userSummaries = []`; with a non-empty eligible set, `sharedCostPerUser`
is `totalSharedCost` divided by the number of eligible participants. -/
theorem C7_shared_cost_division (month : String) (users : List User) (ms : List Meal)
    (ds : List Deposit) (cs : List Cost) :
    (participatingUsers users = [] →
      (computeSummary month users ms ds cs).sharedCostPerUser = 0 ∧
      (computeSummary month users ms ds cs).userSummaries = []) ∧
    (participatingUsers users ≠ [] →
      (computeSummary month users ms ds cs).sharedCostPerUser
        = (computeSummary month users ms ds cs).totalSharedCost
          / ((participatingUsers users).length : ℚ)) := by
  constructor
  · intro h
    constructor
    · show sharedCostPerUserOf users cs = 0
      simp [sharedCostPerUserOf, h]
    · show userSummariesOf users ms ds cs = []
      simp [userSummariesOf, h]
  · intro h
    have h' : 0 < (participatingUsers users).length := List.length_pos.mpr h
    show sharedCostPerUserOf users cs = totalSharedCostOf cs / ((participatingUsers users).length : ℚ)
    simp [sharedCostPerUserOf, h']

/-- Witness for C7: a pending-only participant list gives an empty eligible
set (shared cost per user 0, no rows); a single approved border splits the
shared cost by 1. -/
theorem C7_witness :
    ((computeSummary "2024-01" [exUserPending] [] [] [exMarketCost]).sharedCostPerUser = 0 ∧
      (computeSummary "2024-01" [exUserPending] [] [] [exMarketCost]).userSummaries = []) ∧
    (computeSummary "2024-01" [exUserA] [] [] [exMarketCost]).sharedCostPerUser
      = (computeSummary "2024-01" [exUserA] [] [] [exMarketCost]).totalSharedCost
        / ((participatingUsers [exUserA]).length : ℚ) :=
  ⟨(C7_shared_cost_division "2024-01" [exUserPending] [] [] [exMarketCost]).1 (by decide),
   (C7_shared_cost_division "2024-01" [exUserA] [] [] [exMarketCost]).2 (by decide)⟩

/-- Claim C10: `userSummaries` has exactly one row per eligible participant,
in the order the eligible participants appear in the input list (rows are
identified by `userId` = the participant id), and `userCount` equals the
length of `userSummaries`. -/
theorem C10_rows_match_eligible (month : String) (users : List User) (ms : List Meal)
    (ds : List Deposit) (cs : List Cost) :
    (computeSummary month users ms ds cs).userSummaries.map UserSummary.userId
      = (participatingUsers users).map User.id ∧
    (computeSummary month users ms ds cs).userCount
      = (computeSummary month users ms ds cs).userSummaries.length := by
  refine ⟨userSummariesOf_map_userId users ms ds cs, ?_⟩
  show (participatingUsers users).length = (userSummariesOf users ms ds cs).length
  simp [userSummariesOf]

/-- Claim C5: every row of `userSummaries` satisfies
`balance = userDeposits - (mealCost + sharedCostPerUser + individualCost)`
and `mealCost = totalMeals × mealRate` (exactly, in rational arithmetic). -/
theorem C5_balance_identity (month : String) (users : List User) (ms : List Meal)
    (ds : List Deposit) (cs : List Cost) (r : UserSummary)
    (hr : r ∈ (computeSummary month users ms ds cs).userSummaries) :
    r.balance = r.totalDeposit - (r.mealCost + r.sharedCost + r.individualCost) ∧
    r.mealCost = r.totalMeals * (computeSummary month users ms ds cs).mealRate := by
  have hr' : r ∈ userSummariesOf users ms ds cs := hr
  unfold userSummariesOf at hr'
  obtain ⟨u, hu, rfl⟩ := List.mem_map.mp hr'
  exact ⟨rfl, rfl⟩

/-- Witness for C5: participant The A row in the end-to-end scenario
(balance -200 = 300 - (500 + 0 + 0), meal cost 500 = 5/2 × 200). -/
theorem C5_witness :
    exRowA.balance = exRowA.totalDeposit
      - (exRowA.mealCost + exRowA.sharedCost + exRowA.individualCost) ∧
    exRowA.mealCost = exRowA.totalMeals
      * (computeSummary "2024-01" [exUserA, exUserPending] [exMealA] [exDepositA]
          [exMarketCost]).mealRate :=
  C5_balance_identity "2024-01" [exUserA, exUserPending] [exMealA] [exDepositA] [exMarketCost]
    exRowA
    (by
      show exRowA ∈ userSummariesOf [exUserA, exUserPending] [exMealA] [exDepositA] [exMarketCost]
      have hp : participatingUsers [exUserA, exUserPending] = [exUserA] := by
        simp [participatingUsers, isParticipating, exUserA, exUserPending]
      have hrate : mealRateOf [exMealA] [exMarketCost] = 200 := by
        norm_num [mealRateOf, totalMealsOf, totalMarketCostOf, exMealA, exMarketCost]
      have hshared : sharedCostPerUserOf [exUserA, exUserPending] [exMarketCost] = 0 := by
        simp [sharedCostPerUserOf, hp, totalSharedCostOf, exMarketCost]
      have hlist : userSummariesOf [exUserA, exUserPending] [exMealA] [exDepositA]
          [exMarketCost] = [exRowA] := by
        unfold userSummariesOf
        rw [hp, List.map_cons, List.map_nil, hrate, hshared]
        simp [userSummaryOf, userMealsOf, userDepositsOf, userIndividualCostsOf,
          exUserA, exMealA, exDepositA, exMarketCost, exRowA]
        norm_num
      rw [hlist]
      exact List.mem_singleton_self exRowA)

/-- Claim C3, counterexample: the claim says adding a meal record of a
non-eligible (pending) participant changes the mess-wide totals *while
leaving `userSummaries` unchanged*.  In fact the added meal enlarges the
meal-rate denominator, which changes every eligible participant
`mealCost`: here participant the A row `mealCost` drops from 500 to 250. -/
theorem C3_counterexample :
    (computeSummary "2024-01" [exUserA, exUserPending] [exMealA, exMealPending] []
        [exMarketCost]).totalMeals
      = (computeSummary "2024-01" [exUserA, exUserPending] [exMealA] [] [exMarketCost]).totalMeals
        + 5/2 ∧
    (computeSummary "2024-01" [exUserA, exUserPending] [exMealA, exMealPending] []
        [exMarketCost]).userSummaries
      ≠ (computeSummary "2024-01" [exUserA, exUserPending] [exMealA] [] [exMarketCost]).userSummaries := by
  have hp : participatingUsers [exUserA, exUserPending] = [exUserA] := by
    simp [participatingUsers, isParticipating, exUserA, exUserPending]
  have hshared : sharedCostPerUserOf [exUserA, exUserPending] [exMarketCost] = 0 := by
    simp [sharedCostPerUserOf, hp, totalSharedCostOf, exMarketCost]
  have hrate1 : mealRateOf [exMealA] [exMarketCost] = 200 := by
    norm_num [mealRateOf, totalMealsOf, totalMarketCostOf, exMealA, exMarketCost]
  have hrate2 : mealRateOf [exMealA, exMealPending] [exMarketCost] = 100 := by
    norm_num [mealRateOf, totalMealsOf, totalMarketCostOf, exMealA, exMealPending, exMarketCost]
  have hlist1 : userSummariesOf [exUserA, exUserPending] [exMealA] [] [exMarketCost]
      = [exRowA1] := by
    unfold userSummariesOf
    rw [hp, List.map_cons, List.map_nil, hrate1, hshared]
    simp [userSummaryOf, userMealsOf, userDepositsOf, userIndividualCostsOf,
      exUserA, exMealA, exMarketCost, exRowA1]
    norm_num
  have hlist2 : userSummariesOf [exUserA, exUserPending] [exMealA, exMealPending] []
      [exMarketCost] = [exRowA2] := by
    unfold userSummariesOf
    rw [hp, List.map_cons, List.map_nil, hrate2, hshared]
    simp [userSummaryOf, userMealsOf, userDepositsOf, userIndividualCostsOf,
      exUserA, exMealA, exMealPending, exMarketCost, exRowA2]
    norm_num
  constructor
  · norm_num [computeSummary, totalMealsOf, exMealA, exMealPending]
  · intro h
    have h2 : ([exRowA2] : List UserSummary) = [exRowA1] := by
      rw [← hlist2, ← hlist1]
      exact h
    norm_num [exRowA1, exRowA2] at h2

/-- Claim C3 as amended: the mess-wide totals sum over all records with no
eligibility filtering.  Appending a deposit of a non-eligible participant
changes `totalAllDeposits` by its amount and leaves `userSummaries` entirely
unchanged; appending a meal of a non-eligible participant changes
`totalMeals` by its `totalMeals` and adds no row to `userSummaries` (the
row user ids are unchanged — though eligible row meal costs may move
with the recomputed meal rate). -/
theorem C3_amended_unfiltered_totals (month : String) (users : List User) (ms : List Meal)
    (ds : List Deposit) (cs : List Cost) (d : Deposit) (m : Meal)
    (hd : ∀ u ∈ participatingUsers users, (d.userId == u.id) = false) :
    ((computeSummary month users ms (ds ++ [d]) cs).totalAllDeposits
        = (computeSummary month users ms ds cs).totalAllDeposits + d.amount ∧
      (computeSummary month users ms (ds ++ [d]) cs).userSummaries
        = (computeSummary month users ms ds cs).userSummaries) ∧
    ((computeSummary month users (ms ++ [m]) ds cs).totalMeals
        = (computeSummary month users ms ds cs).totalMeals + m.totalMeals.getD 0 ∧
      (computeSummary month users (ms ++ [m]) ds cs).userSummaries.map UserSummary.userId
        = (computeSummary month users ms ds cs).userSummaries.map UserSummary.userId) := by
  refine ⟨⟨totalAllDepositsOf_append ds d, ?_⟩, ⟨totalMealsOf_append ms m, ?_⟩⟩
  · show userSummariesOf users ms (ds ++ [d]) cs = userSummariesOf users ms ds cs
    unfold userSummariesOf
    exact List.map_congr_left fun u hu =>
      userSummaryOf_append_deposit_other ms ds cs _ _ d u (hd u hu)
  · show (userSummariesOf users (ms ++ [m]) ds cs).map UserSummary.userId
      = (userSummariesOf users ms ds cs).map UserSummary.userId
    rw [userSummariesOf_map_userId, userSummariesOf_map_userId]

/-- Witness for C3 (amended): a deposit of 25 and a meal of 5/2 belonging to
the pending participant B, added to the end-to-end scenario. -/
theorem C3_witness :
    ((computeSummary "2024-01" [exUserA, exUserPending] [exMealA] ([] ++ [exDepositPending])
          [exMarketCost]).totalAllDeposits
        = (computeSummary "2024-01" [exUserA, exUserPending] [exMealA] [] [exMarketCost]).totalAllDeposits
          + exDepositPending.amount ∧
      (computeSummary "2024-01" [exUserA, exUserPending] [exMealA] ([] ++ [exDepositPending])
          [exMarketCost]).userSummaries
        = (computeSummary "2024-01" [exUserA, exUserPending] [exMealA] [] [exMarketCost]).userSummaries) ∧
    ((computeSummary "2024-01" [exUserA, exUserPending] ([exMealA] ++ [exMealPending]) []
          [exMarketCost]).totalMeals
        = (computeSummary "2024-01" [exUserA, exUserPending] [exMealA] [] [exMarketCost]).totalMeals
          + exMealPending.totalMeals.getD 0 ∧
      (computeSummary "2024-01" [exUserA, exUserPending] ([exMealA] ++ [exMealPending]) []
          [exMarketCost]).userSummaries.map UserSummary.userId
        = (computeSummary "2024-01" [exUserA, exUserPending] [exMealA] []
            [exMarketCost]).userSummaries.map UserSummary.userId) :=
  C3_amended_unfiltered_totals "2024-01" [exUserA, exUserPending] [exMealA] [] [exMarketCost]
    exDepositPending exMealPending (by decide)

/-- Claim C9: appending a deposit record of amount `a` (negative allowed)
owned by the eligible participant at position `i` of the eligible list
changes `totalAllDeposits` by exactly `a` and changes that participant
row balance by exactly `a`, all other inputs held fixed. -/
theorem C9_signed_deposit_effect (month : String) (users : List User) (ms : List Meal)
    (ds : List Deposit) (cs : List Cost) (d : Deposit) (i : ℕ)
    (h : i < (participatingUsers users).length)
    (hid : ((participatingUsers users).get ⟨i, h⟩).id = d.userId) :
    (computeSummary month users ms (ds ++ [d]) cs).totalAllDeposits
      = (computeSummary month users ms ds cs).totalAllDeposits + d.amount ∧
    ((computeSummary month users ms (ds ++ [d]) cs).userSummaries.map UserSummary.balance)[i]?
      = (((computeSummary month users ms ds cs).userSummaries.map UserSummary.balance)[i]?).map
          (fun b => b + d.amount) := by
  refine ⟨totalAllDepositsOf_append ds d, ?_⟩
  show ((userSummariesOf users ms (ds ++ [d]) cs).map UserSummary.balance)[i]?
      = (((userSummariesOf users ms ds cs).map UserSummary.balance)[i]?).map
          (fun b => b + d.amount)
  unfold userSummariesOf
  rw [List.map_map, List.map_map, List.getElem?_map, List.getElem?_map,
    List.getElem?_eq_getElem h]
  have hbeq : (d.userId == ((participatingUsers users).get ⟨i, h⟩).id) = true :=
    beq_iff_eq.mpr hid.symm
  simp only [Option.map_some', Function.comp_apply]
  exact congrArg some (userSummaryOf_balance_append_deposit ms ds cs _ _ d _ hbeq)

/-- Witness for C9: a deposit of -50 for the single approved participant A
lowers `totalAllDeposits` and the A balance by 50. -/
theorem C9_witness :
    (computeSummary "2024-01" [exUserA] [] ([] ++ [exNegDeposit]) []).totalAllDeposits
      = (computeSummary "2024-01" [exUserA] [] [] []).totalAllDeposits + exNegDeposit.amount ∧
    ((computeSummary "2024-01" [exUserA] [] ([] ++ [exNegDeposit]) []).userSummaries.map
        UserSummary.balance)[0]?
      = (((computeSummary "2024-01" [exUserA] [] [] []).userSummaries.map
          UserSummary.balance)[0]?).map (fun b => b + exNegDeposit.amount) :=
  C9_signed_deposit_effect "2024-01" [exUserA] [] [] [] exNegDeposit 0 (by decide) (by decide)

/-- Claim C8: starting from a meals collection with at most one record per
(participantId, calendarDate), `saveMeal` preserves that invariant; for a
pair with no existing record it appends exactly one new document (month and
totalMeals derived from the arguments), and for a pair with an existing
record it updates that record in place — the new write weights winning,
month and totalMeals rederived — so the pair still has exactly one record.
(`hids`: Firestore document ids within a collection are distinct.) -/
theorem C8_save_meal_upsert (userId date : String) (md : MealData) (newId : String)
    (meals : List Meal) (hinv : mealUpsertInvariant meals)
    (hids : (meals.map Meal.id).Nodup) :
    mealUpsertInvariant (saveMeal userId date md newId meals) ∧
    (meals.filter (mealKeyMatch userId date) = [] →
      saveMeal userId date md newId meals = meals ++ [newMealDoc userId date md newId]) ∧
    (∀ m0, meals.filter (mealKeyMatch userId date) = [m0] →
      saveMeal userId date md newId meals
        = meals.map (fun m => if m = m0 then
            applyMealUpdate md (date.take 7) (mealDataTotal md) m0 else m) ∧
      (saveMeal userId date md newId meals).filter (mealKeyMatch userId date)
        = [applyMealUpdate md (date.take 7) (mealDataTotal md) m0]) := by
  cases hfe : meals.filter (mealKeyMatch userId date) with
  | nil =>
    have hsave : saveMeal userId date md newId meals
        = meals ++ [newMealDoc userId date md newId] := by
      unfold saveMeal
      rw [hfe]
    refine ⟨?_, fun _ => hsave, fun m0 hm0 => by simp at hm0⟩
    intro uid d
    rw [hsave, List.filter_append]
    by_cases hk : mealKeyMatch uid d (newMealDoc userId date md newId) = true
    · have huid : userId = uid ∧ date = d := by
        simpa [mealKeyMatch, newMealDoc] using hk
      obtain ⟨rfl, rfl⟩ := huid
      simp [hfe, List.filter_cons_of_pos hk]
    · have hk' : List.filter (mealKeyMatch uid d) [newMealDoc userId date md newId] = [] := by
        rw [List.filter_cons_of_neg hk]
        rfl
      rw [hk']
      simpa using hinv uid d
  | cons m0 rest =>
    have hrest : rest = [] := by
      have hlen := hinv userId date
      rw [hfe] at hlen
      have h1 : rest.length + 1 ≤ 1 := by simpa using hlen
      have h2 : rest.length = 0 := by omega
      exact List.length_eq_zero.mp h2
    subst hrest
    have hm0f : m0 ∈ meals.filter (mealKeyMatch userId date) := by
      rw [hfe]
      exact List.mem_singleton_self m0
    have hm0mem : m0 ∈ meals := List.mem_of_mem_filter hm0f
    have hpm0 : mealKeyMatch userId date m0 = true := List.of_mem_filter hm0f
    have hsave : saveMeal userId date md newId meals
        = meals.map (fun m => if m.id == m0.id then
            applyMealUpdate md (date.take 7) (mealDataTotal md) m else m) := by
      unfold saveMeal
      rw [hfe]
    have hinj := List.inj_on_of_nodup_map hids
    have hmapeq : meals.map (fun m => if m.id == m0.id then
          applyMealUpdate md (date.take 7) (mealDataTotal md) m else m)
        = meals.map (fun m => if m = m0 then
            applyMealUpdate md (date.take 7) (mealDataTotal md) m0 else m) := by
      apply List.map_congr_left
      intro m hm
      by_cases he : m = m0
      · subst he
        simp
      · have hne : (m.id == m0.id) = false := by
          by_contra hc
          have hb : (m.id == m0.id) = true := by
            cases hb2 : (m.id == m0.id) with
            | true => rfl
            | false => exact absurd hb2 hc
          exact he (hinj hm hm0mem (beq_iff_eq.mp hb))
        simp [hne, he]
    refine ⟨?_, fun hnil => by simp at hnil, fun m0' hm0' => ?_⟩
    · intro uid d
      rw [hsave]
      have hg : ∀ m, mealKeyMatch uid d (if m.id == m0.id then
          applyMealUpdate md (date.take 7) (mealDataTotal md) m else m) = mealKeyMatch uid d m := by
        intro m
        by_cases hb : (m.id == m0.id) = true
        · simp [hb, mealKeyMatch_applyMealUpdate]
        · simp [hb]
      rw [filter_length_map_of_pres _ (mealKeyMatch uid d) hg meals]
      exact hinv uid d
    · have hm0eq : m0' = m0 := by
        injection hm0' with hh
        exact hh.symm
      rw [hm0eq]
      constructor
      · rw [hsave, hmapeq]
      · rw [hsave, hmapeq]
        have hp' : mealKeyMatch userId date
            (applyMealUpdate md (date.take 7) (mealDataTotal md) m0) = true := by
          rw [mealKeyMatch_applyMealUpdate]
          exact hpm0
        exact filter_map_ite_singleton (mealKeyMatch userId date) m0 _ hp' meals hfe

/-- Witness for C8: a first save on an empty collection inserts one
document; a second save for the same (participant, date) leaves exactly one
(updated) document for that pair. -/
theorem C8_witness :
    saveMeal "A" "2024-01-07" exMd1 "n1" [] = [newMealDoc "A" "2024-01-07" exMd1 "n1"] ∧
    (saveMeal "A" "2024-01-07" exMd2 "n2" [newMealDoc "A" "2024-01-07" exMd1 "n1"]).filter
        (mealKeyMatch "A" "2024-01-07")
      = [applyMealUpdate exMd2 ("2024-01-07".take 7) (mealDataTotal exMd2)
          (newMealDoc "A" "2024-01-07" exMd1 "n1")] := by
  constructor
  · have h := (C8_save_meal_upsert "A" "2024-01-07" exMd1 "n1" []
      (by intro uid d; simp) (by simp)).2.1 rfl
    simpa using h
  · have h := (C8_save_meal_upsert "A" "2024-01-07" exMd2 "n2"
      [newMealDoc "A" "2024-01-07" exMd1 "n1"]
      (by intro uid d; exact List.length_filter_le _ _)
      (by simp)).2.2 (newMealDoc "A" "2024-01-07" exMd1 "n1")
      (by simp [mealKeyMatch, newMealDoc])
    exact h.2

end MessManager
